import Mathlib

/-!
Verification of the GraviTrax-Connect Python library core
(`gravitraxconnect/gravitrax_bridge.py`) via a shallow embedding in Lean.

Bytes are modelled as `Int` (Python integers); `%` on `Int` is Euclidean
modulo, which agrees with the Python `%` operator for a positive modulus, including on
negative dividends.  Frames are `List Int` of length 7.  Stateful methods of
the `Bridge` class become explicit state-passing functions; the nondeterminism
of the transport (scan results, connect outcomes, write failures) and of
`random.randrange` is supplied through explicit parameters.
-/

set_option autoImplicit false

namespace GravitraxBridge

/-- Embedding of `calc_checksum(data, for_received)` (gravitrax_bridge.py,
lines 876-893): `None` unless `data` has length 7, otherwise the sum of the
first five bytes mod 256, and for received signals additionally
`(checksum + data[6] - 1) % 256`. -/
def calc_checksum (data : List Int) (for_received : Bool) : Option Int :=
  match data with
  | [d0, d1, d2, d3, d4, _d5, d6] =>
    let checksum := (d0 + d1 + d2 + d3 + d4) % 256
    some (if for_received then (checksum + d6 - 1) % 256 else checksum)
  | _ => none

/-- Embedding of the eviction loop `while len(self.__last_notifications) > 12:
self.__last_notifications.pop(0)` (lines 448-449): drop elements from the
front until at most 12 remain. -/
def trimWindow (l : List (List Int)) : List (List Int) :=
  if l.length > 12 then trimWindow l.tail else l
termination_by l.length
decreasing_by
  simp only [List.length_tail]
  omega

/-- Embedding of the duplicate check in `__notification_handler`
(lines 444-449): a frame already in `__last_notifications` is skipped
(`continue`); otherwise it is appended and the window trimmed to 12. The
first component reports whether the frame was accepted. -/
def acceptFrame (w : List (List Int)) (f : List Int) : Bool × List (List Int) :=
  if f ∈ w then (false, w) else (true, trimWindow (w ++ [f]))

/-- The duplicate filter run over a whole sequence of received frames,
returning the accept/reject verdicts in order together with the final
window. -/
def runFilter (w : List (List Int)) : List (List Int) → List Bool × List (List Int)
  | [] => ([], w)
  | f :: fs =>
    let r := acceptFrame w f
    let rest := runFilter r.2 fs
    (r.1 :: rest.1, rest.2)

theorem runFilter_cons (w : List (List Int)) (f : List Int) (fs : List (List Int)) :
    runFilter w (f :: fs)
      = ((acceptFrame w f).1 :: (runFilter (acceptFrame w f).2 fs).1,
         (runFilter (acceptFrame w f).2 fs).2) := rfl

theorem trimWindow_eq_drop (l : List (List Int)) :
    trimWindow l = l.drop (l.length - 12) := by
  by_cases h : l.length > 12
  · rw [trimWindow, if_pos h, trimWindow_eq_drop l.tail]
    cases l with
    | nil => simp at h
    | cons a l =>
      simp only [List.tail_cons, List.length_cons] at h ⊢
      rw [show l.length + 1 - 12 = (l.length - 12) + 1 by omega, List.drop_succ_cons]
  · rw [trimWindow, if_neg h]
    rw [show l.length - 12 = 0 by omega, List.drop_zero]
termination_by l.length
decreasing_by
  simp only [List.length_tail]
  omega

theorem trimWindow_length_le (l : List (List Int)) :
    (trimWindow l).length ≤ 12 := by
  rw [trimWindow_eq_drop, List.length_drop]
  omega

theorem trimWindow_subset (l : List (List Int)) :
    trimWindow l ⊆ l := by
  rw [trimWindow_eq_drop]
  exact List.drop_subset _ _

theorem trimWindow_of_le (l : List (List Int)) (h : l.length ≤ 12) :
    trimWindow l = l := by
  rw [trimWindow_eq_drop, show l.length - 12 = 0 by omega, List.drop_zero]

theorem trimWindow_append (a b : List (List Int)) :
    trimWindow (trimWindow a ++ b) = trimWindow (a ++ b) := by
  simp only [trimWindow_eq_drop, List.length_append, List.length_drop,
    List.drop_append_eq_append_drop, List.drop_drop]
  congr 2 <;> omega

/-- A frame already present in the window is rejected every time and leaves
the window unchanged (the `continue` branch of the handler loop). -/
theorem runFilter_seen (w : List (List Int)) (f : List Int) (hf : f ∈ w) :
    ∀ k, runFilter w (List.replicate k f) = (List.replicate k false, w) := by
  intro k
  induction k with
  | zero => rfl
  | succ n ih =>
    have hstep : acceptFrame w f = (false, w) := by simp [acceptFrame, hf]
    simp only [List.replicate_succ, runFilter_cons, hstep, ih]

/-- Running the filter over pairwise-distinct frames none of which is in the
current (≤ 12 entry) window accepts all of them, and the final window is the
trimmed concatenation. -/
theorem runFilter_fresh (fs : List (List Int)) : ∀ w : List (List Int),
    w.length ≤ 12 → fs.Nodup → (∀ f ∈ fs, f ∉ w) →
    runFilter w fs = (List.replicate fs.length true, trimWindow (w ++ fs)) := by
  induction fs with
  | nil =>
    intro w hw _ _
    simp [runFilter, trimWindow_of_le w hw]
  | cons f fs ih =>
    intro w hw hnd hfresh
    have hfw : f ∉ w := hfresh f (List.mem_cons_self f fs)
    have hstep : acceptFrame w f = (true, trimWindow (w ++ [f])) := by
      simp [acceptFrame, hfw]
    have hw' : (trimWindow (w ++ [f])).length ≤ 12 := trimWindow_length_le _
    have hnd' : fs.Nodup := (List.nodup_cons.mp hnd).2
    have hfresh' : ∀ g ∈ fs, g ∉ trimWindow (w ++ [f]) := by
      intro g hg hmem
      have := trimWindow_subset (w ++ [f]) hmem
      rcases List.mem_append.mp this with h | h
      · exact hfresh g (List.mem_cons_of_mem f hg) h
      · have : g = f := List.mem_singleton.mp h
        exact (List.nodup_cons.mp hnd).1 (this ▸ hg)
    simp only [runFilter_cons, hstep, ih (trimWindow (w ++ [f])) hw' hnd' hfresh',
      List.length_cons, List.replicate_succ]
    rw [trimWindow_append, List.append_assoc, List.singleton_append]

/-- C1: `calc_checksum` computes the outbound checksum
`(header+stoneType+status+reserved+messageId) mod 256` when `for_received`
is false, and adds `color - 1` (again mod 256) when `for_received` is true;
the concrete field tuples of the spec yield checksums 24, 54, 255 and 0. -/
theorem c1_checksum_formulas :
    (∀ d0 d1 d2 d3 d4 d5 d6 : Int,
      calc_checksum [d0, d1, d2, d3, d4, d5, d6] false
          = some ((d0 + d1 + d2 + d3 + d4) % 256) ∧
      calc_checksum [d0, d1, d2, d3, d4, d5, d6] true
          = some (((d0 + d1 + d2 + d3 + d4) % 256 + (d6 - 1)) % 256))
    ∧ calc_checksum [19, 5, 0, 0, 0, 0, 1] false = some 24
    ∧ calc_checksum [19, 5, 0, 0, 0, 0, 1] true = some 24
    ∧ calc_checksum [19, 5, 10, 10, 10, 0, 1] false = some 54
    ∧ calc_checksum [19, 5, 10, 10, 10, 0, 1] true = some 54
    ∧ calc_checksum [255, 255, 255, 255, 3, 0, 1] false = some 255
    ∧ calc_checksum [255, 255, 255, 255, 3, 0, 1] true = some 255
    ∧ calc_checksum [255, 255, 255, 255, 4, 0, 1] false = some 0
    ∧ calc_checksum [255, 255, 255, 255, 4, 0, 1] true = some 0 := by
  refine ⟨fun d0 d1 d2 d3 d4 d5 d6 => ⟨rfl, ?_⟩, by decide, by decide, by decide,
    by decide, by decide, by decide, by decide, by decide⟩
  simp [calc_checksum, add_sub_assoc]

/-- C2: the duplicate filter accepts a frame exactly when it is not
byte-for-byte equal to an entry currently held; 13 identical frames are
accepted exactly once (the first); 13 pairwise-distinct frames are all
accepted and only the most recent 12 remain in the window. -/
theorem c2_duplicate_filter :
    (∀ (w : List (List Int)) (f : List Int), (acceptFrame w f).1 = true ↔ f ∉ w)
    ∧ (∀ f : List Int,
        runFilter [] (List.replicate 13 f) = (true :: List.replicate 12 false, [f]))
    ∧ (∀ fs : List (List Int), fs.Nodup → fs.length = 13 →
        runFilter [] fs = (List.replicate 13 true, fs.drop 1)) := by
  refine ⟨fun w f => ?_, fun f => ?_, fun fs hnd hlen => ?_⟩
  · unfold acceptFrame
    by_cases h : f ∈ w <;> simp [h]
  · have h1 : List.replicate 13 f = f :: List.replicate 12 f := rfl
    have hstep : acceptFrame [] f = (true, [f]) := by
      simp [acceptFrame, trimWindow_of_le [f] (by simp)]
    rw [h1, runFilter_cons, hstep, runFilter_seen [f] f (by simp) 12]
  · rw [runFilter_fresh fs [] (by simp) hnd (by simp), hlen]
    simp only [List.nil_append]
    rw [trimWindow_eq_drop, hlen]

/-- Closed instantiation of `c2_duplicate_filter` at concrete frames. -/
theorem c2_duplicate_filter_witness :
    ((acceptFrame [] [19, 0, 0, 0, 0, 0, 0]).1 = true
        ↔ [19, 0, 0, 0, 0, 0, 0] ∉ ([] : List (List Int)))
    ∧ runFilter [] (List.replicate 13 [19, 0, 0, 0, 0, 0, 0])
        = (true :: List.replicate 12 false, [[19, 0, 0, 0, 0, 0, 0]])
    ∧ runFilter [] ((List.range 13).map fun i => [(i : Int)])
        = (List.replicate 13 true, ((List.range 13).map fun i => [(i : Int)]).drop 1) :=
  ⟨c2_duplicate_filter.1 _ _, c2_duplicate_filter.2.1 _,
    c2_duplicate_filter.2.2 _ (by decide) (by decide)⟩

/-! ### Sender: `send_signal` and `send_periodic` -/

/-- The sender-side state: `__next_send_id` (line 91, initialised to 0). -/
structure SendState where
  nextSendId : Int
deriving DecidableEq

/-- Embedding of the message-id critical section and frame construction of
`send_signal` (lines 580-597).  The two `random.randrange` draws are supplied
as `randReserved` and `randId`.  The critical section (lines 581-587) is
guarded by `__send_lock` in the source, so concurrent calls execute it
serially; we model a serialised sequence of calls.  Note line 586 increments
`__next_send_id` unconditionally, also when `random_id` is true.  Returns the
7-byte frame handed to `send_bytes` and the updated state. -/
def send_signal (st : SendState) (status color_channel : Int) (random_id : Bool)
    (randReserved randId : Int) (header : Int := 19) (stone : Int := 6) :
    List Int × SendState :=
  let reserved := randReserved
  let message_id := if random_id then randId else st.nextSendId
  let st' : SendState := ⟨(st.nextSendId + 1) % 256⟩
  let checksum := (header + stone + status + reserved + message_id) % 256
  ([header, stone, status, reserved, message_id, checksum, color_channel], st')

/-- A sequence of `n` non-random `send_signal` calls; collects the transmitted
message ids (byte 4 of each frame). -/
def runSendIds (status color : Int) (st : SendState) : Nat → List Int × SendState
  | 0 => ([], st)
  | n + 1 =>
    let r := send_signal st status color false 0 0
    let rest := runSendIds status color r.2 n
    (r.1.getD 4 0 :: rest.1, rest.2)

theorem runSendIds_spec (status color : Int) :
    ∀ (n : Nat) (c : Int), 0 ≤ c → c < 256 →
      runSendIds status color ⟨c⟩ n
        = ((List.range n).map (fun i : Nat => (c + (i : Int)) % 256), ⟨(c + n) % 256⟩) := by
  intro n
  induction n with
  | zero =>
    intro c h0 h1
    simp [runSendIds, Int.emod_eq_of_lt h0 h1]
  | succ n ih =>
    intro c h0 h1
    have hstep : send_signal ⟨c⟩ status color false 0 0
        = ([19, 6, status, 0, c, (19 + 6 + status + 0 + c) % 256, color],
           ⟨(c + 1) % 256⟩) := rfl
    have hm0 : 0 ≤ (c + 1) % 256 := Int.emod_nonneg _ (by norm_num)
    have hm1 : (c + 1) % 256 < 256 := Int.emod_lt_of_pos _ (by norm_num)
    simp only [runSendIds, hstep, ih ((c + 1) % 256) hm0 hm1, Prod.mk.injEq]
    constructor
    · rw [List.range_succ_eq_map, List.map_cons, List.map_map]
      congr 1
      · simpa using (Int.emod_eq_of_lt h0 h1).symm
      · apply List.map_congr_left
        intro i _
        simp only [Function.comp_apply, Int.emod_add_emod]
        congr 1
        push_cast
        ring
    · congr 1
      rw [Int.emod_add_emod]
      congr 1
      push_cast
      ring

/-- C3: `N ≤ 256` serialised non-random `send_signal` calls starting from a
counter value `c < 256` transmit pairwise-distinct message ids forming the
contiguous range `c, c+1, …, c+N-1` modulo 256.  The read-and-increment of
the counter (lines 581-587) is a single critical section under
`__send_lock`, modelled here as an atomic step of the serialised run. -/
theorem c3_message_id_range (status color : Int) (N : Nat) (c : Int)
    (hN : N ≤ 256) (h0 : 0 ≤ c) (h1 : c < 256) :
    ((runSendIds status color ⟨c⟩ N).1).length = N
    ∧ ((runSendIds status color ⟨c⟩ N).1).Nodup
    ∧ (∀ i : Nat, i < N →
        ((runSendIds status color ⟨c⟩ N).1).getD i (-1) = (c + i) % 256) := by
  rw [runSendIds_spec status color N c h0 h1]
  refine ⟨by rw [List.length_map, List.length_range], ?_, ?_⟩
  · refine List.Nodup.map_on ?_ (List.nodup_range N)
    intro i hi j hj hij
    rw [List.mem_range] at hi hj
    omega
  · intro i hi
    rw [List.getD_eq_getElem?_getD, List.getElem?_map, List.getElem?_range hi]
    rfl

/-- Closed instantiation of `c3_message_id_range` near the wrap-around. -/
theorem c3_message_id_range_witness :
    ((runSendIds 0 1 ⟨254⟩ 3).1).length = 3
    ∧ ((runSendIds 0 1 ⟨254⟩ 3).1).Nodup
    ∧ (∀ i : Nat, i < 3 →
        ((runSendIds 0 1 ⟨254⟩ 3).1).getD i (-1) = (254 + i) % 256) :=
  c3_message_id_range 0 1 3 254 (by norm_num) (by norm_num) (by norm_num)

/-- C10: every `send_signal` call advances `__next_send_id` by exactly one
modulo 256, also with `random_id = true` (line 586 runs unconditionally);
hence the non-random ids around an interleaved random-id send are
`c, (c+2) % 256`, skipping `(c+1) % 256`. -/
theorem c10_counter_always_advances (st : SendState) (status color rr rid : Int) :
    (∀ b : Bool,
      (send_signal st status color b rr rid).2.nextSendId
        = (st.nextSendId + 1) % 256)
    ∧ (∀ c : Int, 0 ≤ c → c < 256 →
        ((send_signal ⟨c⟩ status color false rr rid).1).getD 4 (-1) = c
        ∧ ((send_signal (send_signal ⟨c⟩ status color false rr rid).2
              status color true rr rid).1).getD 4 (-1) = rid
        ∧ ((send_signal (send_signal (send_signal ⟨c⟩ status color false rr rid).2
              status color true rr rid).2 status color false rr rid).1).getD 4 (-1)
            = (c + 2) % 256
        ∧ (c + 2) % 256 ≠ (c + 1) % 256) := by
  refine ⟨fun b => rfl, fun c h0 h1 => ⟨rfl, rfl, ?_, by omega⟩⟩
  show ((c + 1) % 256 + 1) % 256 = (c + 2) % 256
  rw [Int.emod_add_emod]
  congr 1
  ring

/-- Closed instantiation of `c10_counter_always_advances`. -/
theorem c10_counter_always_advances_witness :
    (∀ b : Bool,
      (send_signal ⟨7⟩ 0 1 b 3 9).2.nextSendId = ((7 : Int) + 1) % 256)
    ∧ (((send_signal ⟨7⟩ 0 1 false 3 9).1).getD 4 (-1) = 7
        ∧ ((send_signal (send_signal ⟨7⟩ 0 1 false 3 9).2 0 1 true 3 9).1).getD 4 (-1) = 9
        ∧ ((send_signal (send_signal (send_signal ⟨7⟩ 0 1 false 3 9).2
              0 1 true 3 9).2 0 1 false 3 9).1).getD 4 (-1) = ((7 : Int) + 2) % 256
        ∧ ((7 : Int) + 2) % 256 ≠ ((7 : Int) + 1) % 256) :=
  ⟨(c10_counter_always_advances ⟨7⟩ 0 1 3 9).1,
    (c10_counter_always_advances ⟨7⟩ 0 1 3 9).2 7 (by norm_num) (by norm_num)⟩

/-! ### Notification handling: frame extraction, decoding, dispatch -/

/-- Embedding of the frame extraction in `__notification_handler`
(lines 418-423).  The source renders the payload as space-separated
lowercase hex byte pairs and collects the non-overlapping, left-to-right
matches of the pattern: the pair `13` followed by six further
whitespace-preceded hex pairs.  Since two adjacent hex digits occur only
inside the pair of a single byte, a match corresponds exactly to a byte equal to
0x13 = 19 followed by at least six further bytes, and `re.finditer` consumes
matches non-overlappingly from left to right; this function is that
byte-level reading of the regular-expression scan. -/
def scanFrames : List Int → List (List Int)
  | [] => []
  | b :: rest =>
    if b = 19 ∧ 6 ≤ rest.length then
      (b :: rest.take 6) :: scanFrames (rest.drop 6)
    else
      scanFrames rest
termination_by l => l.length
decreasing_by
  · simp only [List.length_cons]
    have := List.length_drop 6 rest
    omega
  · simp only [List.length_cons]
    omega

/-- The description given by the spec of frame extraction ("exactly the
non-overlapping 7-byte candidate frames beginning with header byte 19,
scanned left to right"), stated independently of the implementation: the
payload decomposes left to right into gaps and extracted frames; each frame
is 7 bytes starting with 19; a gap preceding a frame contains no 19 (such a
19 would itself have started a frame, by the left-to-right maximal scan);
and in the trailing gap every 19 is followed by fewer than 6 bytes. -/
inductive SpecScan : List Int → List (List Int) → Prop
  | last (l : List Int)
      (htrail : ∀ pre post : List Int, l = pre ++ 19 :: post → post.length < 6) :
      SpecScan l []
  | step (gap rest : List Int) (fs : List (List Int))
      (hgap : (19 : Int) ∉ gap) (hlen : 6 ≤ rest.length)
      (hrec : SpecScan (rest.drop 6) fs) :
      SpecScan (gap ++ 19 :: rest) ((19 :: rest.take 6) :: fs)

theorem specScan_cons (b : Int) (l : List Int) (fs : List (List Int))
    (hb : b ≠ 19 ∨ l.length < 6) (h : SpecScan l fs) : SpecScan (b :: l) fs := by
  cases h with
  | last l htrail =>
    refine SpecScan.last _ ?_
    intro pre post heq
    cases pre with
    | nil =>
      simp only [List.nil_append, List.cons.injEq] at heq
      rcases hb with hb | hb
      · exact absurd heq.1 hb
      · rw [heq.2] at hb
        omega
    | cons p pre =>
      simp only [List.cons_append, List.cons.injEq] at heq
      exact htrail pre post heq.2
  | step gap rest fs hgap hlen hrec =>
    have hb' : b ≠ 19 := by
      rcases hb with hb | hb
      · exact hb
      · exfalso
        simp only [List.length_append, List.length_cons] at hb
        omega
    have : b :: (gap ++ 19 :: rest) = (b :: gap) ++ 19 :: rest := rfl
    rw [this]
    refine SpecScan.step (b :: gap) rest fs ?_ hlen hrec
    simp only [List.mem_cons, not_or]
    exact ⟨fun hc => hb' hc.symm, hgap⟩

/-- The scan of the implementation is a valid decomposition in the sense of
the description given by the spec. -/
theorem scanFrames_specScan (l : List Int) : SpecScan l (scanFrames l) := by
  induction l using scanFrames.induct with
  | case1 =>
    rw [scanFrames]
    exact SpecScan.last [] (by intro pre post h; exact absurd h (by simp))
  | case2 b rest h ih =>
    rw [scanFrames, if_pos h]
    obtain ⟨hb, hlen⟩ := h
    subst hb
    have := SpecScan.step [] rest (scanFrames (rest.drop 6)) (by simp) hlen ih
    simpa using this
  | case3 b rest h ih =>
    rw [scanFrames, if_neg h]
    push_neg at h
    by_cases hb : b = 19
    · exact specScan_cons b rest _ (Or.inr (by omega)) ih
    · exact specScan_cons b rest _ (Or.inl hb) ih

/-- Every extracted candidate is 7 bytes long and starts with header 19. -/
theorem scanFrames_wellformed (l : List Int) :
    ∀ f ∈ scanFrames l, f.length = 7 ∧ f.head? = some 19 := by
  induction l using scanFrames.induct with
  | case1 =>
    rw [scanFrames]
    intro f hf
    exact absurd hf (by simp)
  | case2 b rest h ih =>
    rw [scanFrames, if_pos h]
    obtain ⟨hb, hlen⟩ := h
    intro f hf
    rcases List.mem_cons.mp hf with hf | hf
    · subst hf
      constructor
      · simp only [List.length_cons, List.length_take]
        omega
      · rw [hb]
        rfl
    · exact ih f hf
  | case3 b rest h ih =>
    rw [scanFrames, if_neg h]
    exact ih

theorem scanFrames_short (l : List Int) (h : l.length < 7) : scanFrames l = [] := by
  induction l using scanFrames.induct with
  | case1 => rw [scanFrames]
  | case2 b rest hc ih =>
    exfalso
    simp only [List.length_cons] at h
    omega
  | case3 b rest hc ih =>
    rw [scanFrames, if_neg hc]
    refine ih ?_
    simp only [List.length_cons] at h
    omega

/-- Classification of an exception raised by a user-supplied callback:
`typeError` models the Python `TypeError` class (the only class the dispatch code
catches), `otherError` any other exception class. -/
inductive PyExc
  | typeError
  | otherError
deriving DecidableEq

/-- The keyword arguments passed to the notification callback (lines
426-436 and 468-478): the seven protocol fields, each `none` on the
unstructured path, plus the raw payload bytes. -/
structure NotiArgs where
  header : Option Int
  stone : Option Int
  status : Option Int
  reserved : Option Int
  id : Option Int
  checksum : Option Int
  color : Option Int
  data : List Int
deriving DecidableEq

/-- The callback arguments of the unstructured path (lines 426-436): all
protocol fields `None`, only the raw bytes populated. -/
def unstructuredArgs (data : List Int) : NotiArgs :=
  ⟨none, none, none, none, none, none, none, data⟩

/-- The callback arguments of the structured path (lines 451-459 and
468-478): the seven bytes of the matched frame, decoded as-is at their fixed
positions, plus the raw payload. -/
def decodeArgs (f : List Int) (data : List Int) : NotiArgs :=
  ⟨some (f.getD 0 0), some (f.getD 1 0), some (f.getD 2 0), some (f.getD 3 0),
   some (f.getD 4 0), some (f.getD 5 0), some (f.getD 6 0), data⟩

def checksumLogMsg : String :=
  "Incoming Notification was discarded because the Checksum was incorrect"

def callbackFailLogMsg : String :=
  "Failed to call notification callback"

/-- Embedding of the per-frame loop of `__notification_handler`
(lines 442-484).  `cb` models the user callback: `none` for a normal
return, `some e` for a raised exception of class `e`.  A duplicate frame is
skipped; a fresh frame is appended to the window (trimmed to 12); a
checksum mismatch is only logged (lines 461-465); the callback invocation is
wrapped in `try … except TypeError` (lines 467-484), so a `TypeError` is
logged and the loop continues, while any other exception propagates.
Returns the delivered callback argument records, the final window and the
log messages, or the propagated exception. -/
def handleFrames (cb : NotiArgs → Option PyExc) (data : List Int) :
    List (List Int) → List (List Int) →
      Except PyExc (List NotiArgs × List (List Int) × List String)
  | [], w => .ok ([], w, [])
  | f :: fs, w =>
    if f ∈ w then handleFrames cb data fs w
    else
      let w' := trimWindow (w ++ [f])
      let args := decodeArgs f data
      let logs0 :=
        if some (f.getD 5 0) ≠ calc_checksum f true then [checksumLogMsg] else []
      match cb args with
      | none =>
        match handleFrames cb data fs w' with
        | .ok (evs, wf, logs) => .ok (args :: evs, wf, logs0 ++ logs)
        | .error e => .error e
      | some PyExc.typeError =>
        match handleFrames cb data fs w' with
        | .ok (evs, wf, logs) =>
          .ok (args :: evs, wf, logs0 ++ callbackFailLogMsg :: logs)
        | .error e => .error e
      | some PyExc.otherError => .error PyExc.otherError

/-- Embedding of `__notification_handler` (lines 401-486): extract candidate
frames; if none were found, invoke the callback once with the unstructured
arguments — with no surrounding `try` in the source, so any exception there
propagates — otherwise run the per-frame loop. -/
def notification_handler (cb : NotiArgs → Option PyExc) (w : List (List Int))
    (data : List Int) :
    Except PyExc (List NotiArgs × List (List Int) × List String) :=
  let recv_signals := scanFrames data
  if recv_signals = [] then
    match cb (unstructuredArgs data) with
    | some e => .error e
    | none => .ok ([unstructuredArgs data], w, [])
  else
    handleFrames cb data recv_signals w

/-- A callback that never raises keeps the per-frame loop exception-free. -/
theorem handleFrames_ok (cb : NotiArgs → Option PyExc) (data : List Int)
    (hcb : ∀ a, cb a = none) :
    ∀ (fs : List (List Int)) (w : List (List Int)),
      ∃ evs wf logs, handleFrames cb data fs w = .ok (evs, wf, logs) := by
  intro fs
  induction fs with
  | nil => intro w; exact ⟨[], w, [], rfl⟩
  | cons f fs ih =>
    intro w
    by_cases hf : f ∈ w
    · simpa [handleFrames, hf] using ih w
    · obtain ⟨evs, wf, logs, hrec⟩ := ih (trimWindow (w ++ [f]))
      refine ⟨decodeArgs f data :: evs, wf,
        (if some (f.getD 5 0) ≠ calc_checksum f true then [checksumLogMsg] else [])
          ++ logs, ?_⟩
      simp only [handleFrames, hf, if_false, hcb, hrec]

def dcCallbackFailLogMsg : String :=
  "Failed to call Disconnect Callback"

/-- Embedding of the `try … except TypeError` wrapper placed around every
disconnect-callback invocation (lines 219-227, 241-248, 271-280, 306-313):
a TypeError is logged, anything else propagates. -/
def invoke_dc_callback (outcome : Option PyExc) : Except PyExc (List String) :=
  match outcome with
  | none => .ok []
  | some PyExc.typeError => .ok [dcCallbackFailLogMsg]
  | some PyExc.otherError => .error PyExc.otherError

/-- A callback that raises at most TypeError keeps the per-frame loop
exception-free: the `except TypeError` at lines 479-484 catches it and the
loop continues. -/
theorem handleFrames_ok_of_typeError (cb : NotiArgs → Option PyExc)
    (data : List Int)
    (hcb : ∀ a, cb a = none ∨ cb a = some PyExc.typeError) :
    ∀ (fs : List (List Int)) (w : List (List Int)),
      ∃ evs wf logs, handleFrames cb data fs w = .ok (evs, wf, logs) := by
  intro fs
  induction fs with
  | nil => intro w; exact ⟨[], w, [], rfl⟩
  | cons f fs ih =>
    intro w
    by_cases hf : f ∈ w
    · simpa [handleFrames, hf] using ih w
    · obtain ⟨evs, wf, logs, hrec⟩ := ih (trimWindow (w ++ [f]))
      rcases hcb (decodeArgs f data) with hc | hc
      · exact ⟨decodeArgs f data :: evs, wf,
          (if some (f.getD 5 0) ≠ calc_checksum f true then [checksumLogMsg]
            else []) ++ logs,
          by simp only [handleFrames, hf, if_false, hc, hrec]⟩
      · exact ⟨decodeArgs f data :: evs, wf,
          (if some (f.getD 5 0) ≠ calc_checksum f true then [checksumLogMsg]
            else []) ++ callbackFailLogMsg :: logs,
          by simp only [handleFrames, hf, if_false, hc, hrec]⟩

/-- C5: the extraction of `__notification_handler` yields exactly the
spec-described non-overlapping left-to-right 7-byte frames headed by 19,
and a payload with zero candidates is delivered exactly once with every
protocol field `none` and only the raw bytes populated. -/
theorem c5_extraction_and_unstructured :
    (∀ data : List Int, SpecScan data (scanFrames data))
    ∧ (∀ data : List Int, ∀ f ∈ scanFrames data, f.length = 7 ∧ f.head? = some 19)
    ∧ (∀ (cb : NotiArgs → Option PyExc) (w : List (List Int)) (data : List Int),
        scanFrames data = [] → cb (unstructuredArgs data) = none →
        notification_handler cb w data = .ok ([unstructuredArgs data], w, []))
    ∧ (∀ data : List Int,
        unstructuredArgs data = ⟨none, none, none, none, none, none, none, data⟩) := by
  refine ⟨scanFrames_specScan, scanFrames_wellformed, ?_, fun data => rfl⟩
  intro cb w data hscan hcb
  simp only [notification_handler, hscan, if_pos, hcb]

/-- Closed instantiation of `c5_extraction_and_unstructured`. -/
theorem c5_extraction_and_unstructured_witness :
    SpecScan [1, 2, 3] (scanFrames [1, 2, 3])
    ∧ ([19, 1, 2, 3, 4, 5, 6].length = 7
        ∧ ([19, 1, 2, 3, 4, 5, 6] : List Int).head? = some 19)
    ∧ notification_handler (fun _ => none) [] [1, 2, 3]
        = .ok ([unstructuredArgs [1, 2, 3]], [], []) := by
  have h := c5_extraction_and_unstructured
  have hscan6 : scanFrames [19, 1, 2, 3, 4, 5, 6] = [[19, 1, 2, 3, 4, 5, 6]] := by
    rw [show ([19, 1, 2, 3, 4, 5, 6] : List Int) = 19 :: [1, 2, 3, 4, 5, 6] from rfl,
      scanFrames, if_pos (by norm_num)]
    norm_num [scanFrames_short]
  have hscan3 : scanFrames [1, 2, 3] = [] :=
    scanFrames_short _ (by norm_num)
  exact ⟨h.1 _, h.2.1 [19, 1, 2, 3, 4, 5, 6] _ (hscan6 ▸ List.mem_singleton_self _),
    h.2.2.1 _ _ _ hscan3 rfl⟩

/-- C6: a fresh inbound frame whose checksum byte does not equal the
computed inbound checksum is still delivered to the callback with the
fields decoded as-is; the mismatch only prepends the log message. -/
theorem c6_checksum_mismatch_still_delivered
    (cb : NotiArgs → Option PyExc) (data f : List Int) (fs w : List (List Int))
    (hcb : ∀ a, cb a = none) (hfresh : f ∉ w)
    (hmis : some (f.getD 5 0) ≠ calc_checksum f true) :
    ∃ evs wf logs,
      handleFrames cb data (f :: fs) w
        = .ok (⟨some (f.getD 0 0), some (f.getD 1 0), some (f.getD 2 0),
                some (f.getD 3 0), some (f.getD 4 0), some (f.getD 5 0),
                some (f.getD 6 0), data⟩ :: evs, wf, checksumLogMsg :: logs) := by
  obtain ⟨evs, wf, logs, hrec⟩ :=
    handleFrames_ok cb data hcb fs (trimWindow (w ++ [f]))
  refine ⟨evs, wf, logs, ?_⟩
  simp only [handleFrames, hfresh, if_false, hcb, hrec, if_pos hmis,
    List.singleton_append]
  rfl

/-- Closed instantiation of `c6_checksum_mismatch_still_delivered`:
the inbound checksum of `[19,0,0,0,0,200,1]` is 19, not 200. -/
theorem c6_checksum_mismatch_still_delivered_witness :
    ∃ evs wf logs,
      handleFrames (fun _ => none) [19, 0, 0, 0, 0, 200, 1]
          [[19, 0, 0, 0, 0, 200, 1]] []
        = .ok (⟨some 19, some 0, some 0, some 0, some 0, some 200, some 1,
                [19, 0, 0, 0, 0, 200, 1]⟩ :: evs, wf, checksumLogMsg :: logs) :=
  c6_checksum_mismatch_still_delivered (fun _ => none)
    [19, 0, 0, 0, 0, 200, 1] [19, 0, 0, 0, 0, 200, 1] [] []
    (fun _ => rfl) (by simp) (by decide)

/-- C8 as stated is false: the unstructured delivery path (lines 425-437)
has no surrounding try/except at all, so even a TypeError raised by the
notification callback propagates out of the dispatch. -/
theorem c8_counterexample :
    notification_handler (fun _ => some PyExc.typeError) [] [1, 2, 3]
      = .error PyExc.typeError := by
  have hscan : scanFrames [1, 2, 3] = [] := scanFrames_short _ (by norm_num)
  simp only [notification_handler, hscan, if_pos]

/-- C8 amended: only `TypeError` is caught at the dispatch boundaries that
are wrapped — the structured-signal delivery and the disconnect-callback
invocations; a non-TypeError exception on the structured path, and every
exception on the unstructured path, propagates out of the dispatch. -/
theorem c8_only_typeerror_caught :
    (∀ (cb : NotiArgs → Option PyExc) (data : List Int)
        (fs w : List (List Int)),
       (∀ a, cb a = none ∨ cb a = some PyExc.typeError) →
       ∃ evs wf logs, handleFrames cb data fs w = .ok (evs, wf, logs))
    ∧ (∀ (cb : NotiArgs → Option PyExc) (data f : List Int)
          (fs w : List (List Int)),
        f ∉ w → cb (decodeArgs f data) = some PyExc.otherError →
        handleFrames cb data (f :: fs) w = .error PyExc.otherError)
    ∧ (∀ (cb : NotiArgs → Option PyExc) (w : List (List Int)) (data : List Int)
          (e : PyExc),
        scanFrames data = [] → cb (unstructuredArgs data) = some e →
        notification_handler cb w data = .error e)
    ∧ invoke_dc_callback (some PyExc.typeError) = .ok [dcCallbackFailLogMsg]
    ∧ invoke_dc_callback (some PyExc.otherError) = .error PyExc.otherError := by
  refine ⟨fun cb data fs w hcb => handleFrames_ok_of_typeError cb data hcb fs w,
    ?_, ?_, rfl, rfl⟩
  · intro cb data f fs w hfresh hc
    simp only [handleFrames, hfresh, if_false, hc]
  · intro cb w data e hscan hc
    simp only [notification_handler, hscan, if_pos, hc]

/-- Closed instantiation of `c8_only_typeerror_caught`. -/
theorem c8_only_typeerror_caught_witness :
    (∃ evs wf logs,
      handleFrames (fun _ => some PyExc.typeError) [19, 0, 0, 0, 0, 19, 1]
          [[19, 0, 0, 0, 0, 19, 1]] [] = .ok (evs, wf, logs))
    ∧ handleFrames (fun _ => some PyExc.otherError) [19, 0, 0, 0, 0, 19, 1]
          [[19, 0, 0, 0, 0, 19, 1]] [] = .error PyExc.otherError
    ∧ notification_handler (fun _ => some PyExc.typeError) [] [1, 2, 3]
        = .error PyExc.typeError := by
  have h := c8_only_typeerror_caught
  exact ⟨h.1 _ _ _ _ (fun _ => Or.inr rfl),
    h.2.1 _ _ _ _ _ (by simp) rfl,
    h.2.2.1 _ _ _ _ (scanFrames_short _ (by norm_num)) rfl⟩

/-- Embedding of the loop of `send_periodic` (lines 629-644).  `failsAt i`
tells whether the transport write of the `i`-th send fails (setting the
shared `error_event`, which `send_bytes` sets and never clears).  Arguments:
remaining iterations, current index `i`, current error-event state.  Each
issued send is recorded as `(i, sleptBefore)` where `sleptBefore` mirrors
`if gap > 0 and i > 0: await asyncio.sleep(gap)` (lines 635-636). -/
def sendPeriodicAux (stop_on_failure : Bool) (gap : Int) (failsAt : Nat → Bool) :
    Nat → Nat → Bool → List (Nat × Bool)
  | 0, _, _ => []
  | n + 1, i, err =>
    if stop_on_failure && err then []
    else
      (i, decide (0 < gap) && decide (0 < i))
        :: sendPeriodicAux stop_on_failure gap failsAt n (i + 1) (err || failsAt i)

/-- Entry point of `send_periodic(status, color, count, gap, …)`: the loop
starts at index 0 with a fresh (unset) `error_event` (line 629). -/
def send_periodic (count : Nat) (stop_on_failure : Bool) (gap : Int)
    (failsAt : Nat → Bool) : List (Nat × Bool) :=
  sendPeriodicAux stop_on_failure gap failsAt count 0 false

theorem sendPeriodicAux_stopped (gap : Int) (failsAt : Nat → Bool)
    (n i : Nat) : sendPeriodicAux true gap failsAt n i true = [] := by
  cases n <;> rfl

theorem sendPeriodicAux_first_failure (gap : Int) (failsAt : Nat → Bool)
    (j : Nat) (hfail : failsAt j = true) :
    ∀ n i, i ≤ j → j < i + n → (∀ k, i ≤ k → k < j → failsAt k = false) →
      (sendPeriodicAux true gap failsAt n i false).map Prod.fst
        = (List.range (j + 1 - i)).map (i + ·) := by
  intro n
  induction n with
  | zero => intro i h1 h2 _; omega
  | succ n ih =>
    intro i h1 h2 hbefore
    rw [sendPeriodicAux]
    simp only [Bool.and_false, Bool.false_eq_true, if_false, List.map_cons]
    by_cases hij : i = j
    · subst hij
      rw [show (false || failsAt i) = true by rw [hfail]; rfl,
        sendPeriodicAux_stopped]
      simp [show i + 1 - i = 1 by omega, List.range_succ]
    · have hi : failsAt i = false := hbefore i le_rfl (by omega)
      rw [show (false || failsAt i) = false by rw [hi]; rfl,
        ih (i + 1) (by omega) (by omega) (fun k hk1 hk2 => hbefore k (by omega) hk2)]
      rw [show j + 1 - (i + 1) = j - i by omega,
        show j + 1 - i = (j - i) + 1 by omega, List.range_succ_eq_map,
        List.map_cons, List.map_map]
      refine congrArg₂ _ (by omega) ?_
      apply List.map_congr_left
      intro k _
      simp only [Function.comp_apply]
      omega

/-- C7: with `stop_on_failure` every iteration after the first failed send
is skipped — the issued sends are exactly indices `0..j` when send `j` is
the first to fail — and no delay is inserted before the first send. -/
theorem c7_send_periodic_fail_fast (gap : Int) (failsAt : Nat → Bool)
    (count j : Nat) (hj : j < count)
    (hbefore : ∀ k, k < j → failsAt k = false) (hfail : failsAt j = true) :
    ((send_periodic count true gap failsAt).map Prod.fst = List.range (j + 1))
    ∧ (send_periodic count true gap failsAt).length = j + 1
    ∧ (∀ (cnt : Nat) (s : Bool) (g : Int) (fails : Nat → Bool),
        0 < cnt → (send_periodic cnt s g fails).head? = some (0, false)) := by
  have hmain := sendPeriodicAux_first_failure gap failsAt j hfail count 0
    (by omega) (by omega) (fun k hk1 hk2 => hbefore k hk2)
  have hr : (send_periodic count true gap failsAt).map Prod.fst
      = List.range (j + 1) := by
    rw [send_periodic, hmain]
    simp
  refine ⟨hr, ?_, ?_⟩
  · have := congrArg List.length hr
    simpa using this
  · intro cnt s g fails hc
    cases cnt with
    | zero => omega
    | succ n =>
      rw [send_periodic, sendPeriodicAux]
      simp

/-- Closed instantiation of `c7_send_periodic_fail_fast`: `count = 5` with
the transport failing during the 2nd send issues exactly 2 sends. -/
theorem c7_send_periodic_fail_fast_witness :
    ((send_periodic 5 true 1 (fun k => decide (k = 1))).map Prod.fst
        = List.range 2)
    ∧ (send_periodic 5 true 1 (fun k => decide (k = 1))).length = 2
    ∧ (send_periodic 5 true 1 (fun k => decide (k = 1))).head? = some (0, false) := by
  have h := c7_send_periodic_fail_fast 1 (fun k => decide (k = 1)) 5 1
    (by norm_num) (by decide) (by rfl)
  exact ⟨h.1, h.2.1, h.2.2 5 true 1 _ (by norm_num)⟩

/-! ### Connection lifecycle: `connect` and `__reconnect` -/

/-- The transport client handle (`BleakClient`); only its connection flag
matters here. -/
structure Client where
  isConnected : Bool
deriving DecidableEq

/-- A device found by the scanner. -/
structure Device where
  name : String
  address : String
deriving DecidableEq

/-- The `Bridge` instance fields touched by the connection lifecycle
(lines 77-93); callbacks are tracked by presence. -/
structure Bridge where
  client : Option Client
  name : Option String
  dc_callback : Bool
  try_reconnect : Bool
  restart_notifications : Bool
  noti_callback : Bool
  address : Option String
  user_disconnected : Bool
deriving DecidableEq

/-- Outcome of the `BleakClient.connect` attempt inside `Bridge.connect`
(lines 151-160): success, `TimeoutError`, `BleakDeviceNotFoundError`, or
`asyncio.CancelledError`. -/
inductive ConnectAttempt
  | success
  | timedOut
  | notFound
  | cancelled
deriving DecidableEq

/-- Embedding of `Bridge.connect` (lines 95-174).  `device` is the result of
the scanner lookup, `attempt` the outcome of the transport connect.  Returns
the Python return value — `some true`, `some false` or `none` (the bare
`return` on line 158) — together with the new state and the number of
transport connection attempts started.  The argument-validation `raise`
branches and the trailing `request_bridge_info` read are outside the claims
and are not modelled.  Note the method consults neither `self.client` nor
any connection state before proceeding. -/
def connect (b : Bridge) (device : Option Device) (attempt : ConnectAttempt)
    (dc_callback try_reconnect restart_notifications : Bool) :
    Option Bool × Bridge × Nat :=
  let b0 := { b with try_reconnect := try_reconnect,
                     restart_notifications := restart_notifications,
                     dc_callback := dc_callback }
  match device with
  | none => (some false, b0, 0)
  | some d =>
    let b1 := { b0 with client := some { isConnected := false } }
    match attempt with
    | .timedOut => (none, b1, 1)
    | .notFound => (some false, b1, 1)
    | .cancelled => (some false, b1, 1)
    | .success =>
      (some true,
        { b1 with client := some { isConnected := true },
                  user_disconnected := false,
                  name := some d.name,
                  address := some d.address }, 1)

/-- A `Bridge` whose session is already connected. -/
def connectedBridge : Bridge :=
  { client := some { isConnected := true },
    name := some "GravitraxConnect",
    dc_callback := true,
    try_reconnect := false,
    restart_notifications := true,
    noti_callback := true,
    address := some "AA:BB:CC:DD:EE:FF",
    user_disconnected := false }

/-- C4 fails on the code: `connect` called on an already-connected session
does not fail — it runs a full new connection attempt (one transport
connect is started) and returns `some true`, replacing the stored client. -/
theorem c4_counterexample :
    (connect connectedBridge (some ⟨"GravitraxConnect", "11:22:33:44:55:66"⟩)
        .success true false true).1 = some true
    ∧ (connect connectedBridge (some ⟨"GravitraxConnect", "11:22:33:44:55:66"⟩)
        .success true false true).2.2 = 1 :=
  ⟨rfl, rfl⟩

/-- C4 amended: `connect` performs no connection-state check at all — its
return value and the number of transport connection attempts it starts are
independent of the prior client/connection state of the session. -/
theorem c4_connect_ignores_connection_state (b b' : Bridge)
    (device : Option Device) (attempt : ConnectAttempt)
    (dc_callback try_reconnect restart_notifications : Bool) :
    (connect b device attempt dc_callback try_reconnect restart_notifications).1
      = (connect b' device attempt dc_callback try_reconnect restart_notifications).1
    ∧ (connect b device attempt dc_callback try_reconnect restart_notifications).2.2
      = (connect b' device attempt dc_callback try_reconnect restart_notifications).2.2 := by
  cases device <;> cases attempt <;> exact ⟨rfl, rfl⟩

/-- Outcome of `asyncio.wait_for(self.connect(…), timeout=15)` inside
`__reconnect` (lines 296-299): either the 15-second guard fires
(`TimeoutError`), or `connect` completes with its return value (`some
true`, `some false`, or `none` from the bare `return`). -/
inductive ReconnectWait
  | timedOut
  | completed (result : Option Bool)
deriving DecidableEq

/-- Embedding of `Bridge.__reconnect` (lines 285-317).  Returns the list of
disconnect-callback invocations `(user_disconnected, by_timeout)`, the log
messages, and whether notifications are re-enabled.  Only the
`TimeoutError` branch invokes the disconnect callback; when the inner
`connect` merely returns an unsuccessful value, execution falls through to
the success path. -/
def reconnect (b : Bridge) (wait : ReconnectWait) :
    List (Bool × Bool) × List String × Bool :=
  match wait with
  | .timedOut =>
    (if b.dc_callback then [(false, true)] else [],
      ["Could not reconnect to Bridge: Reconnect timed out"], false)
  | .completed _ =>
    ([], ["Reconnected to Bridge"], b.restart_notifications && b.noti_callback)

/-- C9: the disconnect callback fires (tagged `by_timeout=true`) only when
the 15-second `wait_for` guard raises; when the reconnect attempt fails
because the inner `connect` completes returning `False`, no disconnect
callback fires at all and the code even logs a successful reconnect —
contradicting both the claim and the docstring of the method itself ("If the
reconnect fails the dc_callback is called"). -/
theorem c9_reconnect_failure_callback :
    (reconnect connectedBridge .timedOut).1 = [(false, true)]
    ∧ (reconnect connectedBridge (.completed (some false))).1 = []
    ∧ (reconnect connectedBridge (.completed (some false))).2.1
        = ["Reconnected to Bridge"]
    ∧ (reconnect connectedBridge (.completed none)).1 = [] :=
  ⟨rfl, rfl, rfl, rfl⟩

end GravitraxBridge
